import Mathlib

/-!
Shallow embedding of the PDF generation engine of this repository
(src/pdf_generator): the text wrapping and URL highlighting helpers and the
PDF page merger from utils/pdf_helpers.py, the welcome letter page compositor
from templates/welcome_letter/generator.py, and (modelled from the spec) the
document assembler output naming. Coordinates and widths are exact rationals;
reportlab string widths are modelled as sums of per-character advance widths,
which is how reportlab computes them.
-/

set_option maxRecDepth 8000
set_option linter.unusedVariables false

attribute [local semireducible] Rat.add Rat.mul Rat.sub Rat.inv Rat.ofScientific

namespace PdfGen

/-- A font metric: for a font name and size, the advance width of one
character. reportlab stringWidth(s, font, size) is the sum of the glyph
widths of s for that font at that size. -/
abbrev FontMetric := String → ℚ → Char → ℚ

/-- canvas.stringWidth(s, fontName, fontSize): sum of per-character widths. -/
def stringWidth (m : FontMetric) (s : String) (fontName : String) (fontSize : ℚ) : ℚ :=
  (s.data.map (m fontName fontSize)).sum

/-- Helper for pySplit: scan the characters, accumulating the current run of
non-whitespace characters; whitespace closes the run. -/
def wordsAux : List Char → List Char → List (List Char)
  | [], acc => if acc = [] then [] else [acc]
  | c :: cs, acc =>
    if c.isWhitespace then (if acc = [] then [] else [acc]) ++ wordsAux cs []
    else wordsAux cs (acc ++ [c])

/-- Python text.split() with no separator: the maximal runs of non-whitespace
characters, in order; leading, trailing and repeated whitespace produce no
empty words. -/
def pySplit (s : String) : List String :=
  (wordsAux s.data []).map fun w => String.mk w

/-- Join words with single spaces; the shape of every line wrap_text builds. -/
def joinWords : List String → String
  | [] => ""
  | [w] => w
  | w :: ws => w ++ " " ++ joinWords ws

/-- The word loop of wrap_text (pdf_helpers.py lines 145-155): greedily grow
current_line; when the measured test line exceeds max_width, close
current_line (if non-empty) and restart from the current word. -/
def wrapLoop (m : FontMetric) (fontName : String) (fontSize maxWidth : ℚ) :
    List String → List String → String → List String
  | [], lines, currentLine =>
    if currentLine ≠ "" then lines ++ [currentLine] else lines
  | word :: rest, lines, currentLine =>
    let testLine := currentLine ++ (if currentLine ≠ "" then " " else "") ++ word
    let width := stringWidth m testLine fontName fontSize
    if width ≤ maxWidth then
      wrapLoop m fontName fontSize maxWidth rest lines testLine
    else
      if currentLine ≠ "" then
        wrapLoop m fontName fontSize maxWidth rest (lines ++ [currentLine]) word
      else
        wrapLoop m fontName fontSize maxWidth rest lines word

/-- wrap_text(text, max_width, font_name, font_size, canvas_obj) from
src/pdf_generator/utils/pdf_helpers.py lines 127-156. The canvas argument is
only used for stringWidth and is modelled by the font metric m. -/
def wrap_text (m : FontMetric) (text : String) (maxWidth : ℚ)
    (fontName : String) (fontSize : ℚ) : List String :=
  wrapLoop m fontName fontSize maxWidth (pySplit text) [] ""

/-- Helper for pySplitSep: scan left to right; where the separator is a
proved lower bound for the remaining text length, so the 0 case below is
never reached when the initial fuel is the text length. -/
def splitSepAux (sep : List Char) : Nat → List Char → List Char → List (List Char)
  | _, [], acc => [acc]
  | 0, text, acc => [acc ++ text]
  | fuel + 1, c :: cs, acc =>
    if sep.isPrefixOf (c :: cs) then
      acc :: splitSepAux sep fuel (cs.drop (sep.length - 1)) []
    else
      splitSepAux sep fuel cs (acc ++ [c])

/-- Python text.split(sep) for a NON-empty separator: cut at every
non-overlapping occurrence of sep, scanning left to right, keeping empty
chunks. (Python raises on an empty separator; the theorems that involve this
function assume the separator is non-empty.) -/
def pySplitSep (text sep : String) : List String :=
  if sep.data = [] then [text]
  else (splitSepAux sep.data text.data.length text.data []).map fun w => String.mk w

/-- Join chunks with a separator; sep.join(parts) in Python. -/
def joinSep (sep : String) : List String → String
  | [] => ""
  | [part] => part
  | part :: rest => part ++ sep ++ joinSep sep rest

/-- Python s.replace(old, new) for a non-empty old: replace every
non-overlapping occurrence, scanning left to right; identical to
new.join(s.split(old)). -/
def pyReplace (s old new : String) : String :=
  joinSep new (pySplitSep s old)

/-- Whether pat occurs as a contiguous segment of the second list. -/
def listIsInfix (pat : List Char) : List Char → Bool
  | [] => pat.isEmpty
  | c :: cs => pat.isPrefixOf (c :: cs) || listIsInfix pat cs

/-- Python substring test (url in text). -/
def strContains (text sub : String) : Bool :=
  listIsInfix sub.data text.data

/-- Python str.strip(): remove leading and trailing whitespace. -/
def pyStrip (s : String) : String :=
  String.mk (((s.data.dropWhile Char.isWhitespace).reverse.dropWhile Char.isWhitespace).reverse)

/-- An RGB fill or stroke color, as set by setFillColorRGB and friends. -/
structure Color where
  r : ℚ
  g : ℚ
  b : ℚ
deriving DecidableEq, Repr

/-- One recorded drawing operation of a canvas. Text and line operations
record the graphics state (font, color, line width) they were drawn with. -/
inductive Op where
  | text (x y : ℚ) (s : String) (fontName : String) (fontSize : ℚ) (fill : Color)
  | line (x1 y1 x2 y2 : ℚ) (stroke : Color) (lineWidth : ℚ)
  | image (path : String) (x y w h : ℚ)
  | newPage
deriving DecidableEq, Repr

/-- A reportlab canvas: the ordered list of drawing operations so far plus
the current graphics state. -/
structure Canvas where
  ops : List Op := []
  fontName : String := "Helvetica"
  fontSize : ℚ := 12
  fill : Color := ⟨0, 0, 0⟩
  stroke : Color := ⟨0, 0, 0⟩
  lineWidth : ℚ := 1
deriving DecidableEq, Repr

def Canvas.setFont (c : Canvas) (fontName : String) (fontSize : ℚ) : Canvas :=
  { c with fontName := fontName, fontSize := fontSize }

def Canvas.setFillColorRGB (c : Canvas) (r g b : ℚ) : Canvas :=
  { c with fill := ⟨r, g, b⟩ }

def Canvas.setStrokeColorRGB (c : Canvas) (r g b : ℚ) : Canvas :=
  { c with stroke := ⟨r, g, b⟩ }

def Canvas.setLineWidth (c : Canvas) (w : ℚ) : Canvas :=
  { c with lineWidth := w }

def Canvas.drawString (c : Canvas) (x y : ℚ) (s : String) : Canvas :=
  { c with ops := c.ops ++ [Op.text x y s c.fontName c.fontSize c.fill] }

def Canvas.line (c : Canvas) (x1 y1 x2 y2 : ℚ) : Canvas :=
  { c with ops := c.ops ++ [Op.line x1 y1 x2 y2 c.stroke c.lineWidth] }

def Canvas.drawImage (c : Canvas) (path : String) (x y w h : ℚ) : Canvas :=
  { c with ops := c.ops ++ [Op.image path x y w h] }

/-- showPage closes the page and resets the graphics state to its defaults. -/
def Canvas.showPage (c : Canvas) : Canvas :=
  { ops := c.ops ++ [Op.newPage] }

/-- The y coordinate of a text operation, none for other operations. -/
def Op.textY : Op → Option ℚ
  | Op.text _ y _ _ _ _ => some y
  | _ => none

/-- The strings of the text operations of a list, in order. -/
def textStrings (ops : List Op) : List String :=
  ops.filterMap fun op =>
    match op with
    | Op.text _ _ s _ _ _ => some s
    | _ => none

/-- draw_underlined_text(canvas_obj, text, x, y, font_name, font_size,
color_rgb=(0, 0, 1)) from pdf_helpers.py lines 159-181: draw the text in the
given color, underline it with a 0.5-wide line 2 points below, then reset the
stroke color (and only the stroke color) to black. -/
def draw_underlined_text (m : FontMetric) (c : Canvas) (text : String) (x y : ℚ)
    (fontName : String) (fontSize : ℚ) (r : ℚ := 0) (g : ℚ := 0) (b : ℚ := 1) : Canvas :=
  let c := c.setFont fontName fontSize
  let c := c.setFillColorRGB r g b
  let c := c.drawString x y text
  let textWidth := stringWidth m text fontName fontSize
  let underlineY := y - 2
  let c := c.setStrokeColorRGB r g b
  let c := c.setLineWidth (1 / 2)
  let c := c.line x underlineY (x + textWidth) underlineY
  c.setStrokeColorRGB 0 0 0

/-- The enumerated parts loop of draw_text_with_urls (pdf_helpers.py lines
208-217): draw each non-empty part in black advancing by its width, and after
every part except the last draw the url underlined in blue, advancing by the
width of the url. -/
def drawUrlParts (m : FontMetric) (fontName : String) (fontSize : ℚ)
    (url : String) (y : ℚ) : List String → Canvas → ℚ → Canvas × ℚ
  | [], c, currentX => (c, currentX)
  | part :: rest, c, currentX =>
    let step :=
      if part ≠ "" then
        let c := c.setFillColorRGB 0 0 0
        let c := c.drawString currentX y part
        (c, currentX + stringWidth m part fontName fontSize)
      else (c, currentX)
    let c := step.1
    let currentX := step.2
    if rest ≠ [] then
      let c := draw_underlined_text m c url currentX y fontName fontSize 0 0 1
      drawUrlParts m fontName fontSize url y rest c
        (currentX + stringWidth m url fontName fontSize)
    else
      drawUrlParts m fontName fontSize url y rest c currentX

/-- draw_text_with_urls(canvas_obj, text, x, y, font_name, font_size, url,
max_width) from pdf_helpers.py lines 184-224: if the url occurs in the text,
split on it and draw the parts with the url highlighted; otherwise draw the
whole text in black. Returns the canvas and the x position after drawing. -/
def draw_text_with_urls (m : FontMetric) (c : Canvas) (text : String) (x y : ℚ)
    (fontName : String) (fontSize : ℚ) (url : String) (maxWidth : ℚ) : Canvas × ℚ :=
  let c := c.setFont fontName fontSize
  let currentX := x
  if strContains text url then
    drawUrlParts m fontName fontSize url y (pySplitSep text url) c currentX
  else
    let c := c.setFillColorRGB 0 0 0
    let c := c.drawString currentX y text
    (c, currentX + stringWidth m text fontName fontSize)

/-- The plain default-color draw of one line of text: set the font, set the
fill color to black, draw the whole text at x, and advance by its measured
width. Stated from the spec (section 4.2: with no occurrence of the url "the
whole line draws in default color with no underline") for comparison against
the no-occurrence branch of draw_text_with_urls. -/
def plainDraw (m : FontMetric) (c : Canvas) (text : String) (x y : ℚ)
    (fontName : String) (fontSize : ℚ) : Canvas × ℚ :=
  let c := c.setFont fontName fontSize
  let c := c.setFillColorRGB 0 0 0
  let c := c.drawString x y text
  (c, x + stringWidth m text fontName fontSize)

/-- The step of the merge try-block at which a simulated exception is
raised: reading the source PDF, reading the target PDF, writing the merged
intermediate file, or the final os.replace. -/
inductive MergeFail where
  | readSource
  | readTarget
  | writeMerged
  | replaceStep
deriving DecidableEq, Repr

/-- Result of merge_pdf_pages: the file system after the call (paths to
parsed page lists), the printed messages, and the returned path. -/
structure MergeResult (α : Type) where
  fs : String → Option (List α)
  log : List String
  ret : String

/-- merge_pdf_pages(source_pdf_path, target_pdf_path, start_page=2) from
pdf_helpers.py lines 70-124. The file system maps a path to the page list of
the PDF stored there (none when the file is absent or unreadable, in which
case PdfReader raises). hasPypdf models the HAS_PYPDF import flag; failAt
simulates an exception inside the try block at the given step, each step
being atomic (a failing step performs no change). Every path through the
except handler returns target_pdf_path with the file system as modified so
far. -/
def merge_pdf_pages {α : Type} (hasPypdf : Bool) (failAt : Option MergeFail)
    (fs : String → Option (List α)) (sourcePdfPath targetPdfPath : String)
    (startPage : Nat := 2) : MergeResult α :=
  if hasPypdf = false then
    { fs := fs
      log := ["Warning: pypdf not available. Cannot merge pages from format PDF."]
      ret := targetPdfPath }
  else
    match fs sourcePdfPath with
    | none =>
      { fs := fs
        log := ["Warning: Format PDF not found at " ++ sourcePdfPath ++ ". Skipping merge."]
        ret := targetPdfPath }
    | some sourcePages =>
      if failAt = some MergeFail.readSource then
        { fs := fs, log := ["Error merging PDFs"], ret := targetPdfPath }
      else
        match fs targetPdfPath with
        | none =>
          { fs := fs, log := ["Error merging PDFs"], ret := targetPdfPath }
        | some targetPages =>
          if failAt = some MergeFail.readTarget then
            { fs := fs, log := ["Error merging PDFs"], ret := targetPdfPath }
          else
            let writerPages :=
              targetPages ++
                (if sourcePages.length > startPage then sourcePages.drop startPage else [])
            let mergeLog :=
              if sourcePages.length > startPage then
                ["Merged " ++ toString (sourcePages.length - startPage) ++
                  " pages from format PDF."]
              else
                ["Format PDF has only " ++ toString sourcePages.length ++
                  " pages, cannot start from page " ++ toString (startPage + 1) ++ "."]
            let mergedPath := pyReplace targetPdfPath ".pdf" "_merged.pdf"
            if failAt = some MergeFail.writeMerged then
              { fs := fs, log := mergeLog ++ ["Error merging PDFs"], ret := targetPdfPath }
            else
              let fs1 := fun p => if p = mergedPath then some writerPages else fs p
              if failAt = some MergeFail.replaceStep then
                { fs := fs1, log := mergeLog ++ ["Error merging PDFs"], ret := targetPdfPath }
              else
                let fs2 := fun p =>
                  if p = targetPdfPath then fs1 mergedPath
                  else if p = mergedPath then none
                  else fs1 p
                { fs := fs2, log := mergeLog, ret := targetPdfPath }

/-- Exact A4 width in points: reportlab A4 = (210 mm, 297 mm), mm = 72/25.4. -/
def pageWidthA4 : ℚ := 75600 / 127

/-- Exact A4 height in points. -/
def pageHeightA4 : ℚ := 106920 / 127

/-- The customer section of a document request (all fields optional;
dict.get with a default models absent keys). -/
structure CustomerData where
  name : Option String := none
  title : Option String := none
  account_number : Option String := none
  customer_number : Option String := none
  phone : Option String := none
  service_address : Option String := none
deriving DecidableEq, Repr

/-- The account section of a document request. -/
structure AccountData where
  mpan : Option String := none
  profile_class : Option String := none
  contract_type : Option String := none
  product_type : Option String := none
  contract_start_date : Option String := none
  contract_start_date_display : Option String := none
  contract_end_date : Option String := none
deriving DecidableEq, Repr

/-- The pricing section of a document request. -/
structure PricingData where
  standing_charge : Option String := none
  standing_charge_unit : Option String := none
  rate_1 : Option String := none
  rate_1_unit : Option String := none
  rate_2 : Option String := none
  rate_2_unit : Option String := none
  rate_1_label : Option String := none
  rate_2_label : Option String := none
  rate_1_description : Option String := none
  rate_2_description : Option String := none
  rate_3_description : Option String := none
deriving DecidableEq, Repr

/-- A document request (the JSON body driving field substitution). -/
structure DocumentData where
  customer : CustomerData := {}
  account : AccountData := {}
  pricing : PricingData := {}
  website : Option String := none
  business_hours : Option String := none
  date : Option String := none
  date_display : Option String := none
deriving DecidableEq, Repr

/-- The welcome paragraph of page 1 (generator.py lines 107-112), as a
function of the website value substituted into it. -/
def welcomeParagraphText (website : String) : String :=
  "To get you off to the best possible start, please register now for your Online Account by visiting our website "
    ++ website ++
    " and entering the Customer Number listed above. When you first log in you will be asked to provide key information that will help us ensure you are only billed for energy you have used."

/-- The contact paragraph of page 1 (generator.py lines 152-155). -/
def contactParagraphText (website phone businessHours : String) : String :=
  "If you have any questions at this point, please visit our website " ++ website ++
    " and chat to us live or call us on " ++ phone ++
    ". We\x27re here to help from " ++ businessHours ++ "."

/-- An unguarded wrapped-paragraph loop drawing each line with
draw_text_with_urls and stepping the cursor down by line_spacing
(generator.py lines 114-116). -/
def drawWrappedUrlLines (m : FontMetric) (website : String) (margin maxWidth : ℚ)
    (fontName : String) (fontSize lineSpacing : ℚ) :
    List String → Canvas → ℚ → Canvas × ℚ
  | [], c, yPos => (c, yPos)
  | line :: rest, c, yPos =>
    let c := (draw_text_with_urls m c line margin yPos fontName fontSize website maxWidth).1
    drawWrappedUrlLines m website margin maxWidth fontName fontSize lineSpacing
      rest c (yPos - lineSpacing)

/-- The guarded wrapped-paragraph loop of page 1 (generator.py lines
160-165): draw a line with draw_text_with_urls only while y_pos ≥ min_y,
stopping (and dropping the remaining lines) at the first line below. -/
def drawWrappedUrlGuarded (m : FontMetric) (website : String) (margin maxWidth : ℚ)
    (fontName : String) (fontSize minY lineSpacing : ℚ) :
    List String → Canvas → ℚ → Canvas × ℚ
  | [], c, yPos => (c, yPos)
  | line :: rest, c, yPos =>
    if yPos ≥ minY then
      let c := (draw_text_with_urls m c line margin yPos fontName fontSize website maxWidth).1
      drawWrappedUrlGuarded m website margin maxWidth fontName fontSize minY lineSpacing
        rest c (yPos - lineSpacing)
    else (c, yPos)

/-- An unguarded wrapped-paragraph loop drawing each line with drawString at
the given x (generator.py lines 196-198, 206-208, 333-335 and the benefit
and address loops). -/
def drawWrappedLines (x lineSpacing : ℚ) :
    List String → Canvas → ℚ → Canvas × ℚ
  | [], c, yPos => (c, yPos)
  | line :: rest, c, yPos =>
    drawWrappedLines x lineSpacing rest (c.drawString x yPos line) (yPos - lineSpacing)

/-- The guarded wrapped-paragraph loop of page 2 (generator.py lines
348-353): drawString only while y_pos ≥ min_y, stopping at the first line
below. -/
def drawWrappedGuarded (x minY lineSpacing : ℚ) :
    List String → Canvas → ℚ → Canvas × ℚ
  | [], c, yPos => (c, yPos)
  | line :: rest, c, yPos =>
    if yPos ≥ minY then
      drawWrappedGuarded x minY lineSpacing rest (c.drawString x yPos line) (yPos - lineSpacing)
    else (c, yPos)

/-- generate_welcome_letter(canvas_obj, data, format_pdf_path=None) from
src/pdf_generator/templates/welcome_letter/generator.py: compose the two
dynamic pages. fileExists models os.path.exists for the background images
(an image that exists but fails to load is modelled as absent, since the
except branch only logs and continues). -/
def generate_welcome_letter (m : FontMetric) (fileExists : String → Bool)
    (c : Canvas) (data : DocumentData) : Canvas :=
  let pageWidth := pageWidthA4
  let pageHeight := pageHeightA4
  let margin : ℚ := 72
  let rightMargin : ℚ := 72
  let lineSpacing : ℚ := 14
  let fontNormal := "Helvetica"
  let fontBold := "Helvetica-Bold"
  let bgImagePg1 := "format/bg-welcome-pg1.png"
  let bgImagePg2 := "format/bg-welcome-pg2.png"
  let customer := data.customer
  let account := data.account
  let pricing := data.pricing
  let website := data.website.getD "www.aramcoenergy.co.uk"
  let businessHours := data.business_hours.getD "8:30am to 5:30pm, Monday to Friday"
  -- ========== PAGE 1 ==========
  let c := if fileExists bgImagePg1 then
      c.drawImage bgImagePg1 0 0 pageWidth pageHeight
    else c
  let headerHeight := pageHeight * 0.15
  let yPos := pageHeight - headerHeight - 30
  let c := c.setFillColorRGB 0 0 0
  let c := c.setFont fontNormal 10
  let c := c.drawString margin yPos "Private and Confidential"
  let dateDisplay := data.date_display.getD (data.date.getD "N/A")
  let dateWidth := stringWidth m dateDisplay fontNormal 10
  let c := c.drawString (pageWidth - rightMargin - dateWidth) yPos dateDisplay
  let yPos := yPos - lineSpacing * 9.5
  let accountNum := customer.account_number.getD "N/A"
  let c := c.setFont fontBold 10
  let c := c.setFillColorRGB 0 0 0
  let c := c.drawString margin yPos "Account Number: "
  let labelWidth := stringWidth m "Account Number: " fontBold 10
  let c := c.setFillColorRGB 0 0 1
  let c := c.drawString (margin + labelWidth) yPos accountNum
  let yPos := yPos - lineSpacing
  let customerNum := customer.customer_number.getD "N/A"
  let c := c.setFillColorRGB 0 0 0
  let c := c.drawString margin yPos "Customer Number: "
  let labelWidth := stringWidth m "Customer Number: " fontBold 10
  let c := c.setFillColorRGB 0 0 1
  let c := c.drawString (margin + labelWidth) yPos customerNum
  let yPos := yPos - lineSpacing * 2
  let customerName := customer.name.getD "Name"
  let c := c.setFont fontNormal 11
  let c := c.setFillColorRGB 0 0 0
  let c := c.drawString margin yPos ("Hi " ++ customerName ++ ",")
  let yPos := yPos - lineSpacing * 1.5
  let c := c.setFont fontBold 12
  let c := c.setFillColorRGB 0 0 0
  let c := c.drawString margin yPos "Welcome to Aramco Energy"
  let yPos := yPos - lineSpacing * 2
  let c := c.setFont fontNormal 10
  let c := c.setFillColorRGB 0 0 0
  let welcomeText := welcomeParagraphText website
  let wrappedText := wrap_text m welcomeText (pageWidth - margin - rightMargin) fontNormal 10
  let r := drawWrappedUrlLines m website margin (pageWidth - margin - rightMargin)
    fontNormal 10 lineSpacing wrappedText c yPos
  let c := r.1
  let yPos := r.2
  let yPos := yPos - lineSpacing * 0.5
  let c := c.drawString margin yPos "Once again we look forward to supplying your business energy."
  let yPos := yPos - lineSpacing * 2
  let c := c.setFont fontBold 10
  let c := c.setFillColorRGB 0 0 0
  let c := c.drawString margin yPos "Other key benefits of your Online Account include:"
  let yPos := yPos - lineSpacing * 1.5
  let c := c.setFont fontNormal 10
  let c := c.setFillColorRGB 0 0 0
  let benefits := [
    "Download and view your invoices",
    "View and manage your energy usage",
    "Input meter readings to help ensure your invoice is accurate",
    "Make payments online",
    "Access copies of forms and other information"]
  let r := drawWrappedLines (margin + 15) lineSpacing
    (benefits.map fun benefit => "• " ++ benefit) c yPos
  let c := r.1
  let yPos := r.2
  let yPos := yPos - lineSpacing * 0.5
  let c := c.drawString margin yPos "Attached you will find your important contract information, terms and conditions and privacy policy."
  let yPos := yPos - lineSpacing * 1.2
  let phone := customer.phone.getD "TBC"
  let contactText := contactParagraphText website phone businessHours
  let wrappedContact := wrap_text m contactText (pageWidth - margin - rightMargin) fontNormal 10
  let footerAreaHeight := pageHeight * 0.05
  let minY := footerAreaHeight + 100
  let r := drawWrappedUrlGuarded m website margin (pageWidth - margin - rightMargin)
    fontNormal 10 minY lineSpacing wrappedContact c yPos
  let c := r.1
  let c := c.showPage
  -- ========== PAGE 2 ==========
  let c := if fileExists bgImagePg2 then
      c.drawImage bgImagePg2 0 0 pageWidth pageHeight
    else c
  let headerHeight := pageHeight * 0.15
  let yPos := pageHeight - headerHeight - 30
  let c := c.setFillColorRGB 0 0 0
  let c := c.setFont fontNormal 10
  let sectionText := "Additional information to accompany Aramco\x27s Standard Terms & Conditions to Businesses and Micro Businesses"
  let wrappedSection := wrap_text m sectionText (pageWidth - margin - rightMargin) fontNormal 10
  let r := drawWrappedLines margin lineSpacing wrappedSection c yPos
  let c := r.1
  let yPos := r.2
  let yPos := yPos - lineSpacing * 0.3
  let c := c.drawString margin yPos "(Incorporating the requisite \"Statement of Renewal Terms\")"
  let yPos := yPos - lineSpacing * 1.5
  let noteText := "Any terms highlighted in bold below are defined in section O (definitions) of the Terms and Conditions document that accompanies this statement."
  let wrappedNote := wrap_text m noteText (pageWidth - margin - rightMargin) fontNormal 10
  let r := drawWrappedLines margin lineSpacing wrappedNote c yPos
  let c := r.1
  let yPos := r.2
  let yPos := yPos - lineSpacing * 2
  let c := c.setFont fontBold 11
  let section1Text := "1. Customer & site"
  let c := c.drawString margin yPos section1Text
  let textWidth := stringWidth m section1Text fontBold 11
  let underlineY := yPos - 2
  let c := c.setStrokeColorRGB 0 0 0
  let c := c.setLineWidth 1
  let c := c.line margin underlineY (margin + textWidth) underlineY
  let yPos := yPos - lineSpacing * 2
  let customerTitle := customer.title.getD ""
  let customerFullName := pyStrip (customerTitle ++ " " ++ customerName)
  let c := c.setFont fontNormal 10
  let c := c.drawString margin yPos ("Customer name: " ++ customerFullName)
  let yPos := yPos - lineSpacing * 2.5
  let c := c.drawString margin yPos "Site(s) address(es):"
  let yPos := yPos - lineSpacing
  let serviceAddress := customer.service_address.getD "N/A"
  let addressLines := pySplitSep serviceAddress "\n"
  let r := drawWrappedLines (margin + 15) lineSpacing (addressLines.map pyStrip) c yPos
  let c := r.1
  let yPos := r.2
  let yPos := yPos - lineSpacing * 1.5
  let mpan := account.mpan.getD "N/A"
  let c := c.drawString margin yPos ("MPAN (electricity): " ++ mpan)
  let yPos := yPos - lineSpacing * 2.5
  let profileClass := account.profile_class.getD "N/A"
  let c := c.drawString margin yPos ("Profile Class: " ++ profileClass)
  let yPos := yPos - lineSpacing * 2.5
  let c := c.setFont fontBold 11
  let section2Text := "2. Contract details"
  let c := c.drawString margin yPos section2Text
  let textWidth := stringWidth m section2Text fontBold 11
  let underlineY := yPos - 2
  let c := c.setStrokeColorRGB 0 0 0
  let c := c.setLineWidth 1
  let c := c.line margin underlineY (margin + textWidth) underlineY
  let yPos := yPos - lineSpacing * 2
  let c := c.setFont fontNormal 10
  let contractType := account.contract_type.getD "N/A"
  let c := c.drawString margin yPos ("Contract form (type): " ++ contractType)
  let yPos := yPos - lineSpacing * 2.5
  let productType := account.product_type.getD "N/A"
  let c := c.drawString margin yPos ("Product Type: " ++ productType)
  let yPos := yPos - lineSpacing * 2.5
  let contractStart := account.contract_start_date_display.getD
    (account.contract_start_date.getD "N/A")
  let c := c.drawString margin yPos
    ("Contract start date: " ++ contractStart ++ " (subject to successful application)")
  let yPos := yPos - lineSpacing * 2.5
  let contractEnd := account.contract_end_date.getD "N/A"
  let c := c.drawString margin yPos
    ("Contract end date: " ++ contractEnd ++ " (to be confirmed in writing when finalised)")
  let yPos := yPos - lineSpacing * 2.5
  let c := c.setFont fontBold 11
  let section3Text := "3. Contract prices"
  let c := c.drawString margin yPos section3Text
  let textWidth := stringWidth m section3Text fontBold 11
  let underlineY := yPos - 2
  let c := c.setStrokeColorRGB 0 0 0
  let c := c.setLineWidth 1
  let c := c.line margin underlineY (margin + textWidth) underlineY
  let yPos := yPos - lineSpacing * 2
  let c := c.setFont fontNormal 10
  let contractStartDate := account.contract_start_date.getD "N/A"
  let priceHeader := "Contract price: Initial Period (" ++ contractStartDate ++
    ") until end of contract"
  let c := c.drawString margin yPos priceHeader
  let yPos := yPos - lineSpacing * 2.5
  let standingCharge := pricing.standing_charge.getD "£0.78"
  let standingUnit := pricing.standing_charge_unit.getD "per day"
  let rate1 := pricing.rate_1.getD "30.40"
  let rate1Unit := pricing.rate_1_unit.getD "p / kWh"
  let rate2 := pricing.rate_2.getD "21.10"
  let rate2Unit := pricing.rate_2_unit.getD "p / kWh"
  let pricingLine := standingCharge ++ " " ++ standingUnit ++ rate1 ++ " " ++
    rate1Unit ++ rate2 ++ " " ++ rate2Unit
  let c := c.drawString margin yPos pricingLine
  let yPos := yPos - lineSpacing
  let labelsLine := "(Standing Charge)(" ++ pricing.rate_1_label.getD "Rate 1" ++
    ")(" ++ pricing.rate_2_label.getD "Rate 2" ++ ")"
  let c := c.drawString margin yPos labelsLine
  let yPos := yPos - lineSpacing * 2
  let rate1Desc := pricing.rate_1_description.getD "Day charge"
  let rate2Desc := pricing.rate_2_description.getD "Night Charge"
  let rate3Desc := pricing.rate_3_description.getD "Evening/Weekend charge"
  let c := c.drawString margin yPos
    ("Rate1 – " ++ rate1Desc ++ ", Rate 2 – " ++ rate2Desc ++ ", Rate 3 – " ++ rate3Desc ++ ".")
  let yPos := yPos - lineSpacing * 1.2
  let clarification := "For clarification, if no charges are quoted for Rates 2 & 3 then Rate 1 will apply at all times (24 hours a day, 7 days a week)"
  let wrappedClar := wrap_text m clarification (pageWidth - margin - rightMargin) fontNormal 10
  let r := drawWrappedLines margin lineSpacing wrappedClar c yPos
  let c := r.1
  let yPos := r.2
  let yPos := yPos - lineSpacing * 0.5
  let priceChange := "If unit rates are subject to change, prices will vary when wholesale and/or third party costs have changed significantly"
  let wrappedChange := wrap_text m priceChange (pageWidth - margin - rightMargin) fontNormal 10
  let footerAreaHeight := pageHeight * 0.05
  let minY := footerAreaHeight + 20
  let r := drawWrappedGuarded margin minY lineSpacing wrappedChange c yPos
  let c := r.1
  c

/-- Decimal digit character for a digit value (values above 9 clamp to 9;
all uses are of values below 10). -/
def digitChar : Nat → Char
  | 0 => '0'
  | 1 => '1'
  | 2 => '2'
  | 3 => '3'
  | 4 => '4'
  | 5 => '5'
  | 6 => '6'
  | 7 => '7'
  | 8 => '8'
  | _ => '9'

/-- Two-digit zero-padded decimal rendering of n < 100. -/
def pad2 (n : Nat) : List Char :=
  [digitChar (n / 10), digitChar (n % 10)]

/-- Four-digit zero-padded decimal rendering of n < 10000. -/
def pad4 (n : Nat) : List Char :=
  [digitChar (n / 1000), digitChar (n / 100 % 10), digitChar (n / 10 % 10), digitChar (n % 10)]

/-- Modelled from the spec: a wall-clock second read when the document
assembler derives a default output name. The assembler itself (the service
entry point calling the templates) is not under src/, so its naming scheme
is modelled from spec section 4.4. -/
structure Timestamp where
  year : Nat
  month : Nat
  day : Nat
  hour : Nat
  minute : Nat
  second : Nat
deriving DecidableEq, Repr

/-- A calendar-plausible timestamp with a four-digit year. -/
def Timestamp.valid (t : Timestamp) : Prop :=
  1000 ≤ t.year ∧ t.year ≤ 9999 ∧ 1 ≤ t.month ∧ t.month ≤ 12 ∧
    1 ≤ t.day ∧ t.day ≤ 31 ∧ t.hour ≤ 23 ∧ t.minute ≤ 59 ∧ t.second ≤ 59

instance (t : Timestamp) : Decidable t.valid := by
  unfold Timestamp.valid
  infer_instance

/-- Modelled from the spec: the 14-character YYYYMMDDHHMMSS timestamp string
(second granularity, sortable, zero-padded). -/
def Timestamp.str (t : Timestamp) : String :=
  String.mk (pad4 t.year ++ pad2 t.month ++ pad2 t.day ++ pad2 t.hour ++
    pad2 t.minute ++ pad2 t.second)

/-- The chronological order key of a timestamp: seconds-resolution mixed
radix value. -/
def Timestamp.key (t : Timestamp) : Nat :=
  ((((t.year * 100 + t.month) * 100 + t.day) * 100 + t.hour) * 100 + t.minute) * 100 + t.second

/-- Modelled from the spec: the template identifier to file-name base
mapping of the document assembler (spec sections 4.4 and 8: the welcome
template derives welcome_letter_<timestamp>.pdf). -/
def templateFileBase : String → Option String
  | "welcome" => some "welcome_letter"
  | "contract" => some "contract"
  | "billing-invoice" => some "billing_invoice"
  | _ => none

/-- Modelled from the spec: the default output path derivation of the
document assembler when no explicit output path is supplied:
<templateName>_<timestamp>.pdf under the fixed results directory. -/
def derivedOutputPath (templateId : String) (t : Timestamp) : Option String :=
  (templateFileBase templateId).map fun base =>
    "results/" ++ base ++ "_" ++ t.str ++ ".pdf"

/-- A constant-width font metric used for concrete runs: every character of
every font advances 30 points (a wide display font; the footer overflow
below happens for any metric once the paragraph wraps to enough lines, a
wide font merely keeps the concrete computation small). -/
def flatMetric : FontMetric := fun _ _ _ => 30

/-- A document request whose website value is 100 two-letter words: a
customer-controlled value that makes the page-1 welcome paragraph wrap to
enough lines to walk the cursor through the footer band. -/
def overflowData : DocumentData :=
  { website := some (joinSep " " (List.replicate 100 "aa")) }


/-! ## Lemmas about whitespace splitting and joining -/

theorem data_empty : ("" : String).data = [] := rfl

theorem str_eq_empty_iff (s : String) : s = "" ↔ s.data = [] := by
  rw [String.ext_iff]

theorem wordsAux_nil_eq (acc : List Char) :
    wordsAux [] acc = if acc = [] then [] else [acc] := rfl

theorem wordsAux_cons_eq (c : Char) (cs acc : List Char) :
    wordsAux (c :: cs) acc =
      if c.isWhitespace then (if acc = [] then [] else [acc]) ++ wordsAux cs []
      else wordsAux cs (acc ++ [c]) := rfl

theorem wordsAux_forall (l : List Char) : ∀ (acc : List Char),
    (∀ ch ∈ acc, ch.isWhitespace = false) →
    ∀ w ∈ wordsAux l acc, w ≠ [] ∧ ∀ ch ∈ w, ch.isWhitespace = false := by
  induction l with
  | nil =>
    intro acc hacc w hw
    rw [wordsAux_nil_eq] at hw
    split at hw
    · simp at hw
    · rw [List.mem_singleton] at hw
      subst hw
      exact ⟨by assumption, hacc⟩
  | cons c cs ih =>
    intro acc hacc w hw
    rw [wordsAux_cons_eq] at hw
    split at hw
    · rcases List.mem_append.1 hw with h | h
      · split at h
        · simp at h
        · rw [List.mem_singleton] at h
          subst h
          exact ⟨by assumption, hacc⟩
      · exact ih [] (by simp) w h
    · refine ih (acc ++ [c]) ?_ w hw
      intro ch hch
      rcases List.mem_append.1 hch with h | h
      · exact hacc ch h
      · rw [List.mem_singleton] at h
        subst h
        simp_all

theorem pySplit_words (text : String) :
    ∀ w ∈ pySplit text, w.data ≠ [] ∧ ∀ ch ∈ w.data, ch.isWhitespace = false := by
  intro w hw
  unfold pySplit at hw
  rcases List.mem_map.1 hw with ⟨l, hl, rfl⟩
  exact wordsAux_forall _ [] (by simp) l hl

theorem wordsAux_append_word (w : List Char) (hw : ∀ ch ∈ w, ch.isWhitespace = false) :
    ∀ (r acc : List Char), wordsAux (w ++ r) acc = wordsAux r (acc ++ w) := by
  induction w with
  | nil => intro r acc; simp
  | cons c w ih =>
    intro r acc
    have hc : c.isWhitespace = false := hw c (by simp)
    have hrest : ∀ ch ∈ w, ch.isWhitespace = false := fun ch h => hw ch (by simp [h])
    show wordsAux (c :: (w ++ r)) acc = _
    rw [wordsAux_cons_eq, if_neg (by simp [hc])]
    rw [ih hrest r (acc ++ [c])]
    simp

theorem wordsAux_ws_cons (c : Char) (hc : c.isWhitespace = true) (r acc : List Char)
    (hacc : acc ≠ []) : wordsAux (c :: r) acc = acc :: wordsAux r [] := by
  rw [wordsAux_cons_eq, if_pos hc, if_neg hacc]
  simp

theorem wordsAux_single (w : List Char) (h : w ≠ [])
    (hws : ∀ ch ∈ w, ch.isWhitespace = false) : wordsAux w [] = [w] := by
  have h2 := wordsAux_append_word w hws [] []
  rw [List.append_nil, List.nil_append] at h2
  rw [h2, wordsAux_nil_eq, if_neg h]

theorem joinWords_cons (w x : String) (xs : List String) :
    joinWords (w :: x :: xs) = w ++ " " ++ joinWords (x :: xs) := rfl

theorem joinWords_data_cons (w : String) (ws : List String) (h : ws ≠ []) :
    (joinWords (w :: ws)).data = w.data ++ ' ' :: (joinWords ws).data := by
  cases ws with
  | nil => exact absurd rfl h
  | cons x xs =>
    rw [joinWords_cons]
    simp [String.data_append]

theorem joinWords_append_last (ws : List String) (v : String) (h : ws ≠ []) :
    joinWords (ws ++ [v]) = joinWords ws ++ " " ++ v := by
  induction ws with
  | nil => exact absurd rfl h
  | cons w ws ih =>
    cases ws with
    | nil => rfl
    | cons x xs =>
      show joinWords (w :: ((x :: xs) ++ [v])) = _
      rw [show w :: ((x :: xs) ++ [v]) = w :: x :: (xs ++ [v]) from rfl]
      rw [joinWords_cons]
      rw [show (x : String) :: (xs ++ [v]) = (x :: xs) ++ [v] from rfl]
      rw [ih (by simp), joinWords_cons]
      simp [String.append_assoc]

theorem pySplit_joinWords : ∀ (ws : List String), ws ≠ [] →
    (∀ w ∈ ws, w.data ≠ [] ∧ ∀ ch ∈ w.data, ch.isWhitespace = false) →
    pySplit (joinWords ws) = ws := by
  intro ws
  induction ws with
  | nil => intro h; exact absurd rfl h
  | cons w ws ih =>
    intro _ hw
    cases ws with
    | nil =>
      show pySplit w = [w]
      unfold pySplit
      rw [wordsAux_single w.data (hw w (by simp)).1 (hw w (by simp)).2]
      simp
    | cons x xs =>
      unfold pySplit
      rw [joinWords_data_cons w (x :: xs) (by simp)]
      rw [wordsAux_append_word w.data (hw w (by simp)).2]
      rw [List.nil_append]
      rw [wordsAux_ws_cons ' ' (by decide) _ _ (hw w (by simp)).1]
      have ihh := ih (by simp) (fun u hu => hw u (by simp [hu]))
      unfold pySplit at ihh
      simp only [List.map_cons]
      rw [ihh]

/-! ## The wrap loop: equations, width invariant and chunk decomposition -/

theorem wrapLoop_nil_eq (m : FontMetric) (fontName : String) (fontSize maxWidth : ℚ)
    (lines : List String) (currentLine : String) :
    wrapLoop m fontName fontSize maxWidth [] lines currentLine =
      if currentLine ≠ "" then lines ++ [currentLine] else lines := rfl

theorem wrapLoop_cons_eq (m : FontMetric) (fontName : String) (fontSize maxWidth : ℚ)
    (word : String) (rest lines : List String) (currentLine : String) :
    wrapLoop m fontName fontSize maxWidth (word :: rest) lines currentLine =
      if stringWidth m (currentLine ++ (if currentLine ≠ "" then " " else "") ++ word)
          fontName fontSize ≤ maxWidth then
        wrapLoop m fontName fontSize maxWidth rest lines
          (currentLine ++ (if currentLine ≠ "" then " " else "") ++ word)
      else if currentLine ≠ "" then
        wrapLoop m fontName fontSize maxWidth rest (lines ++ [currentLine]) word
      else
        wrapLoop m fontName fontSize maxWidth rest lines word := rfl

theorem wrapLoop_width (m : FontMetric) (fontName : String) (fontSize maxWidth : ℚ)
    (S : List String) :
    ∀ (ws : List String), (∀ w ∈ ws, w ∈ S) →
    ∀ (lines : List String) (currentLine : String),
      (∀ l ∈ lines, stringWidth m l fontName fontSize ≤ maxWidth ∨ l ∈ S) →
      (currentLine = "" ∨ stringWidth m currentLine fontName fontSize ≤ maxWidth ∨
        currentLine ∈ S) →
      ∀ l ∈ wrapLoop m fontName fontSize maxWidth ws lines currentLine,
        stringWidth m l fontName fontSize ≤ maxWidth ∨ l ∈ S := by
  intro ws
  induction ws with
  | nil =>
    intro _ lines currentLine hlines hcur l hl
    rw [wrapLoop_nil_eq] at hl
    split at hl
    · rcases List.mem_append.1 hl with h | h
      · exact hlines l h
      · rw [List.mem_singleton] at h
        subst h
        rcases hcur with h | h
        · exact absurd h (by assumption)
        · exact h
    · exact hlines l hl
  | cons word rest ih =>
    intro hws lines currentLine hlines hcur l hl
    have hword : word ∈ S := hws word (by simp)
    have hrest : ∀ w ∈ rest, w ∈ S := fun w h => hws w (by simp [h])
    rw [wrapLoop_cons_eq] at hl
    by_cases hww : stringWidth m
        (currentLine ++ (if currentLine ≠ "" then " " else "") ++ word)
        fontName fontSize ≤ maxWidth
    · rw [if_pos hww] at hl
      exact ih hrest lines _ hlines (Or.inr (Or.inl hww)) l hl
    · rw [if_neg hww] at hl
      by_cases h0 : currentLine ≠ ""
      · rw [if_pos h0] at hl
        refine ih hrest (lines ++ [currentLine]) word ?_ (Or.inr (Or.inr hword)) l hl
        intro u hu
        rcases List.mem_append.1 hu with h | h
        · exact hlines u h
        · rw [List.mem_singleton] at h
          subst h
          rcases hcur with h | h
          · exact absurd h h0
          · exact h
      · rw [if_neg h0] at hl
        exact ih hrest lines word hlines (Or.inr (Or.inr hword)) l hl

theorem wrapLoop_chunks (m : FontMetric) (fontName : String) (fontSize maxWidth : ℚ) :
    ∀ (ws : List String), (∀ w ∈ ws, w ≠ "") →
    ∀ (lines : List String) (currentLine : String)
      (lc : List (List String)) (cc : List String),
      lines = lc.map joinWords → (∀ ch ∈ lc, ch ≠ []) →
      currentLine = joinWords cc → (currentLine = "" ↔ cc = []) →
      ∃ chunks : List (List String),
        wrapLoop m fontName fontSize maxWidth ws lines currentLine = chunks.map joinWords ∧
        chunks.flatten = lc.flatten ++ cc ++ ws ∧
        ∀ ch ∈ chunks, ch ≠ [] := by
  intro ws
  induction ws with
  | nil =>
    intro _ lines currentLine lc cc hlines hlc hcur hiff
    by_cases hcl : currentLine ≠ ""
    · rw [wrapLoop_nil_eq, if_pos hcl]
      refine ⟨lc ++ [cc], ?_, ?_, ?_⟩
      · rw [hlines, hcur]; simp
      · simp
      · intro ch hch
        rcases List.mem_append.1 hch with h | h
        · exact hlc ch h
        · rw [List.mem_singleton] at h
          subst h
          intro hcc
          exact hcl (hiff.2 hcc)
    · rw [wrapLoop_nil_eq, if_neg hcl]
      have hcc : cc = [] := hiff.1 (not_not.1 hcl)
      subst hcc
      exact ⟨lc, hlines, by simp, hlc⟩
  | cons word rest ih =>
    intro hws lines currentLine lc cc hlines hlc hcur hiff
    have hword : word ≠ "" := hws word (by simp)
    have hwordd : word.data ≠ [] := fun h => hword ((str_eq_empty_iff word).2 h)
    have hrest : ∀ w ∈ rest, w ≠ "" := fun w h => hws w (by simp [h])
    rw [wrapLoop_cons_eq]
    by_cases hww : stringWidth m
        (currentLine ++ (if currentLine ≠ "" then " " else "") ++ word)
        fontName fontSize ≤ maxWidth
    · rw [if_pos hww]
      have hne : currentLine ++ (if currentLine ≠ "" then " " else "") ++ word ≠ "" := by
        intro h
        have hd := congrArg String.data h
        rw [String.data_append, String.data_append, data_empty] at hd
        exact hwordd (List.append_eq_nil.1 hd).2
      have hjoin : currentLine ++ (if currentLine ≠ "" then " " else "") ++ word =
          joinWords (cc ++ [word]) := by
        by_cases h0 : currentLine = ""
        · have hcc : cc = [] := hiff.1 h0
          subst hcc
          subst h0
          rw [if_neg (by simp)]
          rw [String.append_empty, String.empty_append]
          rfl
        · have hcc : cc ≠ [] := fun hc => h0 (by rw [hcur, hc]; rfl)
          rw [if_pos h0, hcur, joinWords_append_last cc word hcc]
      have hiff2 : currentLine ++ (if currentLine ≠ "" then " " else "") ++ word = "" ↔
          cc ++ [word] = [] := by
        constructor
        · intro h; exact absurd h hne
        · intro h; simp at h
      obtain ⟨chunks, h1, h2, h3⟩ := ih hrest lines
        (currentLine ++ (if currentLine ≠ "" then " " else "") ++ word)
        lc (cc ++ [word]) hlines hlc hjoin hiff2
      refine ⟨chunks, h1, ?_, h3⟩
      rw [h2]
      simp
    · rw [if_neg hww]
      by_cases h0 : currentLine ≠ ""
      · rw [if_pos h0]
        have hcc : cc ≠ [] := fun hc => h0 (by rw [hcur, hc]; rfl)
        have hlc2 : ∀ ch ∈ lc ++ [cc], ch ≠ [] := by
          intro ch hch
          rcases List.mem_append.1 hch with h | h
          · exact hlc ch h
          · rw [List.mem_singleton] at h
            subst h
            exact hcc
        have hiff2 : word = "" ↔ [word] = [] := by
          constructor
          · intro h; exact absurd h hword
          · intro h; simp at h
        obtain ⟨chunks, h1, h2, h3⟩ := ih hrest (lines ++ [currentLine]) word
          (lc ++ [cc]) [word] (by rw [hlines, hcur]; simp) hlc2 rfl hiff2
        refine ⟨chunks, h1, ?_, h3⟩
        rw [h2]
        simp
      · rw [if_neg h0]
        have hcc : cc = [] := hiff.1 (not_not.1 h0)
        subst hcc
        have hiff2 : word = "" ↔ [word] = [] := by
          constructor
          · intro h; exact absurd h hword
          · intro h; simp at h
        obtain ⟨chunks, h1, h2, h3⟩ := ih hrest lines word lc [word] hlines hlc rfl hiff2
        refine ⟨chunks, h1, ?_, h3⟩
        rw [h2]
        simp

theorem wrap_text_chunks (m : FontMetric) (text : String) (maxWidth : ℚ)
    (fontName : String) (fontSize : ℚ) :
    ∃ chunks : List (List String),
      wrap_text m text maxWidth fontName fontSize = chunks.map joinWords ∧
      chunks.flatten = pySplit text ∧
      ∀ ch ∈ chunks, ch ≠ [] := by
  have hws : ∀ w ∈ pySplit text, w ≠ "" := by
    intro w h hw
    exact (pySplit_words text w h).1 ((str_eq_empty_iff w).1 hw)
  obtain ⟨chunks, h1, h2, h3⟩ := wrapLoop_chunks m fontName fontSize maxWidth
    (pySplit text) hws [] "" [] [] rfl (by simp) rfl (by simp)
  exact ⟨chunks, h1, by simpa using h2, h3⟩

/-- C1: every line wrap_text returns measures at most maxWidth, except that
a line can exceed maxWidth only by being a single whitespace-delimited word
of the input placed alone on that line (never split). -/
theorem wrap_text_width_bound (m : FontMetric) (text : String) (maxWidth : ℚ)
    (fontName : String) (fontSize : ℚ) (l : String)
    (hl : l ∈ wrap_text m text maxWidth fontName fontSize) :
    stringWidth m l fontName fontSize ≤ maxWidth ∨
      (maxWidth < stringWidth m l fontName fontSize ∧ l ∈ pySplit text) := by
  have h := wrapLoop_width m fontName fontSize maxWidth (pySplit text) (pySplit text)
    (fun w h => h) [] "" (by simp) (Or.inl rfl) l hl
  rcases h with h | h
  · exact Or.inl h
  · rcases le_or_lt (stringWidth m l fontName fontSize) maxWidth with h2 | h2
    · exact Or.inl h2
    · exact Or.inr ⟨h2, h⟩

/-- Witness for C1: the first line of wrapping "ab cd" at width 2 with a
unit-width metric. -/
theorem wrap_text_width_bound_witness :
    stringWidth (fun _ _ _ => 1) "ab" "f" 1 ≤ 2 ∨
      (2 < stringWidth (fun _ _ _ => 1) "ab" "f" 1 ∧ "ab" ∈ pySplit "ab cd") :=
  wrap_text_width_bound (fun _ _ _ => 1) "ab cd" 2 "f" 1 "ab" (by decide)

theorem joinWords_chars : ∀ (ws : List String),
    (∀ w ∈ ws, ∀ a ∈ w.data, a.isWhitespace = false) →
    ∀ a ∈ (joinWords ws).data, a = ' ' ∨ a.isWhitespace = false := by
  intro ws
  induction ws with
  | nil => intro _ a ha; rw [show joinWords [] = "" from rfl, data_empty] at ha; simp at ha
  | cons w ws ih =>
    intro hws a ha
    cases ws with
    | nil =>
      exact Or.inr (hws w (by simp) a ha)
    | cons x xs =>
      rw [joinWords_data_cons w (x :: xs) (by simp)] at ha
      rcases List.mem_append.1 ha with h | h
      · exact Or.inr (hws w (by simp) a h)
      · rcases List.mem_cons.1 h with h | h
        · exact Or.inl h
        · exact ih (fun u hu => hws u (by simp [hu])) a h

theorem map_pySplit_flatten (cs : List (List String))
    (hne : ∀ ch ∈ cs, ch ≠ [])
    (hw : ∀ ch ∈ cs, ∀ w ∈ ch, w.data ≠ [] ∧ ∀ a ∈ w.data, a.isWhitespace = false) :
    ((cs.map joinWords).map pySplit).flatten = cs.flatten := by
  induction cs with
  | nil => simp
  | cons ch cs ih =>
    simp only [List.map_cons, List.flatten_cons]
    rw [pySplit_joinWords ch (hne ch (by simp)) (hw ch (by simp))]
    rw [ih (fun u hu => hne u (by simp [hu])) (fun u hu => hw u (by simp [hu]))]

/-- C6: concatenating the whitespace-split words of all returned lines
reproduces the whitespace-split words of the input, in order (no word is
lost, duplicated, split or reordered by wrapping). -/
theorem wrap_text_words_preserved (m : FontMetric) (text : String) (maxWidth : ℚ)
    (fontName : String) (fontSize : ℚ) :
    ((wrap_text m text maxWidth fontName fontSize).map pySplit).flatten = pySplit text := by
  obtain ⟨chunks, h1, h2, h3⟩ := wrap_text_chunks m text maxWidth fontName fontSize
  have hwords : ∀ ch ∈ chunks, ∀ w ∈ ch,
      w.data ≠ [] ∧ ∀ a ∈ w.data, a.isWhitespace = false := by
    intro ch hch w hw
    refine pySplit_words text w ?_
    rw [← h2]
    exact List.mem_flatten.2 ⟨ch, hch, hw⟩
  rw [h1, map_pySplit_flatten chunks h3 hwords, h2]

/-- C7 counterexample: for the non-empty all-whitespace input " ",
wrap_text returns the empty sequence, so "returns the empty sequence exactly
when the input text is empty" fails as stated. -/
theorem wrap_text_empty_counterexample :
    wrap_text (fun _ _ _ => 1) " " 10 "Helvetica" 10 = [] ∧ (" " : String) ≠ "" := by
  constructor
  · rfl
  · decide

/-- C7 (amended): wrap_text returns the empty sequence exactly when the
input splits into no words, that is when the text is empty or consists only
of whitespace; for any input with at least one non-whitespace character the
returned sequence is non-empty. -/
theorem wrap_text_nil_iff (m : FontMetric) (text : String) (maxWidth : ℚ)
    (fontName : String) (fontSize : ℚ) :
    wrap_text m text maxWidth fontName fontSize = [] ↔ pySplit text = [] := by
  constructor
  · intro h
    obtain ⟨chunks, h1, h2, h3⟩ := wrap_text_chunks m text maxWidth fontName fontSize
    rw [h] at h1
    rw [← h2, List.map_eq_nil_iff.1 h1.symm]
    rfl
  · intro h
    unfold wrap_text
    rw [h, wrapLoop_nil_eq]
    simp

/-- C9: every returned line is exactly the single-space join of its
whitespace-split words: no leading or trailing whitespace, words separated
by exactly one space, and every character is either a plain space or
non-whitespace (newlines and tabs of the input never survive). -/
theorem wrap_text_lines_normalized (m : FontMetric) (text : String) (maxWidth : ℚ)
    (fontName : String) (fontSize : ℚ) (l : String)
    (hl : l ∈ wrap_text m text maxWidth fontName fontSize) :
    pySplit l ≠ [] ∧ joinWords (pySplit l) = l ∧
      ∀ ch ∈ l.data, ch = ' ' ∨ ch.isWhitespace = false := by
  obtain ⟨chunks, h1, h2, h3⟩ := wrap_text_chunks m text maxWidth fontName fontSize
  rw [h1] at hl
  rcases List.mem_map.1 hl with ⟨ch, hch, rfl⟩
  have hwords : ∀ w ∈ ch, w.data ≠ [] ∧ ∀ a ∈ w.data, a.isWhitespace = false := by
    intro w hw
    refine pySplit_words text w ?_
    rw [← h2]
    exact List.mem_flatten.2 ⟨ch, hch, hw⟩
  have hsplit : pySplit (joinWords ch) = ch := pySplit_joinWords ch (h3 ch hch) hwords
  refine ⟨?_, ?_, ?_⟩
  · rw [hsplit]; exact h3 ch hch
  · rw [hsplit]
  · exact joinWords_chars ch (fun w hw => (hwords w hw).2)

/-- Witness for C9: the single line produced by wrapping "a  b" (with a
run of two spaces) at a generous width. -/
theorem wrap_text_lines_normalized_witness :
    pySplit "a b" ≠ [] ∧ joinWords (pySplit "a b") = "a b" ∧
      ∀ ch ∈ ("a b" : String).data, ch = ' ' ∨ ch.isWhitespace = false :=
  wrap_text_lines_normalized (fun _ _ _ => 1) "a  b" 100 "f" 1 "a b" (by decide)

/-! ## The URL highlighter: drawn segments, advance, and color state -/

theorem draw_underlined_text_eq (m : FontMetric) (c : Canvas) (text : String) (x y : ℚ)
    (fontName : String) (fontSize : ℚ) (r g b : ℚ) :
    draw_underlined_text m c text x y fontName fontSize r g b =
      { ops := c.ops ++
          [Op.text x y text fontName fontSize ⟨r, g, b⟩,
            Op.line x (y - 2) (x + stringWidth m text fontName fontSize) (y - 2)
              ⟨r, g, b⟩ (1 / 2)]
        fontName := fontName
        fontSize := fontSize
        fill := ⟨r, g, b⟩
        stroke := ⟨0, 0, 0⟩
        lineWidth := 1 / 2 } := by
  simp [draw_underlined_text, Canvas.setFont, Canvas.setFillColorRGB, Canvas.drawString,
    Canvas.setStrokeColorRGB, Canvas.setLineWidth, Canvas.line]

theorem drawUrlParts_nil_eq (m : FontMetric) (fontName : String) (fontSize : ℚ)
    (url : String) (y : ℚ) (c : Canvas) (x : ℚ) :
    drawUrlParts m fontName fontSize url y [] c x = (c, x) := rfl

theorem drawUrlParts_cons_eq (m : FontMetric) (fontName : String) (fontSize : ℚ)
    (url : String) (y : ℚ) (part : String) (rest : List String) (c : Canvas) (x : ℚ) :
    drawUrlParts m fontName fontSize url y (part :: rest) c x =
      (let step :=
        if part ≠ "" then
          (((c.setFillColorRGB 0 0 0).drawString x y part),
            x + stringWidth m part fontName fontSize)
        else (c, x)
       if rest ≠ [] then
        drawUrlParts m fontName fontSize url y rest
          (draw_underlined_text m step.1 url step.2 y fontName fontSize 0 0 1)
          (step.2 + stringWidth m url fontName fontSize)
       else
        drawUrlParts m fontName fontSize url y rest step.1 step.2) := rfl


theorem drawUrlParts_ops_advance (m : FontMetric) (fontName : String) (fontSize : ℚ)
    (url : String) (y : ℚ) :
    ∀ (parts : List String) (c : Canvas) (x : ℚ),
      ∃ δ : List Op,
        (drawUrlParts m fontName fontSize url y parts c x).1.ops = c.ops ++ δ ∧
        (drawUrlParts m fontName fontSize url y parts c x).2 =
          x + ((textStrings δ).map fun s => stringWidth m s fontName fontSize).sum ∧
        ∀ op ∈ δ, op.textY = none ∨ op.textY = some y := by
  intro parts
  induction parts with
  | nil =>
    intro c x
    exact ⟨[], by rw [drawUrlParts_nil_eq]; simp,
      by rw [drawUrlParts_nil_eq]; simp [textStrings], by simp⟩
  | cons part rest ih =>
    intro c x
    rw [drawUrlParts_cons_eq]
    dsimp only
    by_cases hp : part ≠ ""
    · by_cases hr : rest ≠ []
      · rw [if_pos hr, if_pos hp]
        dsimp only
        obtain ⟨δ, h1, h2, h3⟩ := ih
          (draw_underlined_text m ((c.setFillColorRGB 0 0 0).drawString x y part)
            url (x + stringWidth m part fontName fontSize) y fontName fontSize 0 0 1)
          (x + stringWidth m part fontName fontSize + stringWidth m url fontName fontSize)
        refine ⟨Op.text x y part c.fontName c.fontSize ⟨0, 0, 0⟩ ::
          Op.text (x + stringWidth m part fontName fontSize) y url fontName fontSize
            ⟨0, 0, 1⟩ ::
          Op.line (x + stringWidth m part fontName fontSize) (y - 2)
            (x + stringWidth m part fontName fontSize + stringWidth m url fontName fontSize)
            (y - 2) ⟨0, 0, 1⟩ (1 / 2) :: δ, ?_, ?_, ?_⟩
        · rw [h1, draw_underlined_text_eq]
          simp [Canvas.drawString, Canvas.setFillColorRGB]
        · rw [h2]
          simp only [textStrings, List.filterMap_cons, List.map_cons, List.sum_cons]
          ring_nf
        · intro op hop
          rcases List.mem_cons.1 hop with h | hop
          · subst h; right; rfl
          rcases List.mem_cons.1 hop with h | hop
          · subst h; right; rfl
          rcases List.mem_cons.1 hop with h | hop
          · subst h; left; rfl
          · exact h3 op hop
      · have hre : rest = [] := not_not.1 hr
        subst hre
        rw [if_neg hr, if_pos hp]
        dsimp only
        rw [drawUrlParts_nil_eq]
        refine ⟨[Op.text x y part c.fontName c.fontSize ⟨0, 0, 0⟩], ?_, ?_, ?_⟩
        · simp [Canvas.drawString, Canvas.setFillColorRGB]
        · simp [textStrings, List.filterMap_cons]
        · intro op hop
          rw [List.mem_singleton] at hop
          subst hop
          right
          rfl
    · by_cases hr : rest ≠ []
      · rw [if_pos hr, if_neg hp]
        dsimp only
        obtain ⟨δ, h1, h2, h3⟩ := ih
          (draw_underlined_text m c url x y fontName fontSize 0 0 1)
          (x + stringWidth m url fontName fontSize)
        refine ⟨Op.text x y url fontName fontSize ⟨0, 0, 1⟩ ::
          Op.line x (y - 2) (x + stringWidth m url fontName fontSize) (y - 2)
            ⟨0, 0, 1⟩ (1 / 2) :: δ, ?_, ?_, ?_⟩
        · rw [h1, draw_underlined_text_eq]
          simp
        · rw [h2]
          simp only [textStrings, List.filterMap_cons, List.map_cons, List.sum_cons]
          ring_nf
        · intro op hop
          rcases List.mem_cons.1 hop with h | hop
          · subst h; right; rfl
          rcases List.mem_cons.1 hop with h | hop
          · subst h; left; rfl
          · exact h3 op hop
      · have hre : rest = [] := not_not.1 hr
        subst hre
        rw [if_neg hr, if_neg hp]
        dsimp only
        rw [drawUrlParts_nil_eq]
        exact ⟨[], by simp, by simp [textStrings], by simp⟩

/-- C4: draw_text_with_urls appends its drawing operations to the canvas and
returns the starting x plus the sum of the measured widths of all drawn text
segments, in left-to-right order; and with no occurrence of the url the call
is exactly the plain default-color draw of the whole line (no underline). -/
theorem draw_text_with_urls_advance (m : FontMetric) (c : Canvas) (text : String)
    (x y : ℚ) (fontName : String) (fontSize : ℚ) (url : String) (maxWidth : ℚ)
    (hurl : url ≠ "") :
    (∃ δ : List Op,
      (draw_text_with_urls m c text x y fontName fontSize url maxWidth).1.ops =
        c.ops ++ δ ∧
      (draw_text_with_urls m c text x y fontName fontSize url maxWidth).2 =
        x + ((textStrings δ).map fun s => stringWidth m s fontName fontSize).sum) ∧
    (strContains text url = false →
      draw_text_with_urls m c text x y fontName fontSize url maxWidth =
        plainDraw m c text x y fontName fontSize) := by
  constructor
  · unfold draw_text_with_urls
    dsimp only
    by_cases hocc : strContains text url
    · rw [if_pos hocc]
      obtain ⟨δ, h1, h2, h3⟩ := drawUrlParts_ops_advance m fontName fontSize url y
        (pySplitSep text url) (c.setFont fontName fontSize) x
      exact ⟨δ, by rw [h1]; simp [Canvas.setFont], h2⟩
    · rw [if_neg hocc]
      refine ⟨[Op.text x y text fontName fontSize ⟨0, 0, 0⟩], ?_, ?_⟩
      · simp [Canvas.drawString, Canvas.setFillColorRGB, Canvas.setFont]
      · simp [textStrings, List.filterMap_cons]
  · intro hocc
    unfold draw_text_with_urls plainDraw
    dsimp only
    rw [if_neg (by simp [hocc])]

/-- Witness for C4: a line with no occurrence of the url draws exactly like
the plain draw. -/
theorem draw_text_with_urls_advance_witness :
    draw_text_with_urls (fun _ _ _ => 1) {} "call 123" 5 7 "f" 1 "www.x" 100 =
      plainDraw (fun _ _ _ => 1) {} "call 123" 5 7 "f" 1 :=
  (draw_text_with_urls_advance (fun _ _ _ => 1) {} "call 123" 5 7 "f" 1 "www.x" 100
    (by decide)).2 (by decide)

theorem drawUrlParts_fill_last_empty (m : FontMetric) (fontName : String) (fontSize : ℚ)
    (url : String) (y : ℚ) :
    ∀ (parts : List String) (c : Canvas) (x : ℚ),
      2 ≤ parts.length → parts.getLast? = some "" →
      (drawUrlParts m fontName fontSize url y parts c x).1.fill = ⟨0, 0, 1⟩ := by
  intro parts
  induction parts with
  | nil => intro c x hlen; simp at hlen
  | cons part rest ih =>
    intro c x hlen hlast
    cases rest with
    | nil => simp at hlen
    | cons q rs =>
      rw [List.getLast?_cons_cons] at hlast
      rw [drawUrlParts_cons_eq]
      dsimp only
      rw [if_pos (by simp : (q :: rs) ≠ [])]
      cases rs with
      | cons r rs2 =>
        exact ih _ _ (by simp) hlast
      | nil =>
        rw [List.getLast?_singleton] at hlast
        have hq : q = "" := by injection hlast
        subst hq
        rw [drawUrlParts_cons_eq]
        dsimp only
        rw [if_neg (by simp : ¬("" : String) ≠ "")]
        rw [if_neg (by simp : ¬([] : List String) ≠ [])]
        dsimp only
        rw [drawUrlParts_nil_eq]
        rw [draw_underlined_text_eq]

/-- C10: when the text ends with an occurrence of the url (the last chunk of
the left-to-right split on the url is empty), draw_text_with_urls leaves the
fill color of the canvas set to the highlight blue; and draw_underlined_text
resets only the stroke color to black, leaving the fill at the highlight
color, so the next drawing call that does not set its own fill inherits it. -/
theorem draw_text_with_urls_fill_blue (m : FontMetric) (c : Canvas) (text : String)
    (x y : ℚ) (fontName : String) (fontSize : ℚ) (url : String) (maxWidth : ℚ)
    (hurl : url ≠ "") (hocc : strContains text url = true)
    (hlen : 2 ≤ (pySplitSep text url).length)
    (hlast : (pySplitSep text url).getLast? = some "") :
    (draw_text_with_urls m c text x y fontName fontSize url maxWidth).1.fill =
      ⟨0, 0, 1⟩ ∧
    ∀ (c2 : Canvas) (t : String) (x2 y2 : ℚ) (fn2 : String) (fs2 r g b : ℚ),
      (draw_underlined_text m c2 t x2 y2 fn2 fs2 r g b).fill = ⟨r, g, b⟩ ∧
      (draw_underlined_text m c2 t x2 y2 fn2 fs2 r g b).stroke = ⟨0, 0, 0⟩ := by
  constructor
  · unfold draw_text_with_urls
    dsimp only
    rw [if_pos hocc]
    exact drawUrlParts_fill_last_empty m fontName fontSize url y (pySplitSep text url)
      (c.setFont fontName fontSize) x hlen hlast
  · intro c2 t x2 y2 fn2 fs2 r g b
    rw [draw_underlined_text_eq]
    exact ⟨rfl, rfl⟩

/-- Witness for C10: the text "see www.x" ends with the url "www.x" and the
call leaves the fill blue. -/
theorem draw_text_with_urls_fill_blue_witness :
    (draw_text_with_urls (fun _ _ _ => 1) {} "see www.x" 5 7 "f" 1 "www.x" 100).1.fill =
      ⟨0, 0, 1⟩ :=
  (draw_text_with_urls_fill_blue (fun _ _ _ => 1) {} "see www.x" 5 7 "f" 1 "www.x" 100
    (by decide) (by decide) (by decide) (by decide)).1

/-! ## The PDF page merger -/

/-- C2: with the library available and no exception, merging source pages P
from startPage into a target holding Q leaves at targetPath exactly
Q ++ P.drop startPage and returns targetPath; when startPage ≥ P.length the
target content is exactly Q (nothing appended) and the condition is reported
by the cannot-start log message, not an error. -/
theorem merge_pdf_pages_pages {α : Type} (fs : String → Option (List α))
    (sourcePdfPath targetPdfPath : String) (startPage : Nat) (P Q : List α)
    (hs : fs sourcePdfPath = some P) (ht : fs targetPdfPath = some Q) :
    (merge_pdf_pages true none fs sourcePdfPath targetPdfPath startPage).ret =
      targetPdfPath ∧
    (merge_pdf_pages true none fs sourcePdfPath targetPdfPath startPage).fs
      targetPdfPath = some (Q ++ P.drop startPage) ∧
    (P.length ≤ startPage →
      (merge_pdf_pages true none fs sourcePdfPath targetPdfPath startPage).fs
        targetPdfPath = some Q ∧
      (merge_pdf_pages true none fs sourcePdfPath targetPdfPath startPage).log =
        ["Format PDF has only " ++ toString P.length ++
          " pages, cannot start from page " ++ toString (startPage + 1) ++ "."]) := by
  refine ⟨?_, ?_, ?_⟩
  · simp [merge_pdf_pages, hs, ht]
  · by_cases hlen : P.length > startPage
    · simp [merge_pdf_pages, hs, ht, hlen]
    · simp [merge_pdf_pages, hs, ht, hlen, List.drop_eq_nil_of_le (le_of_not_lt hlen)]
  · intro hle
    have hlen : ¬ P.length > startPage := not_lt.2 hle
    constructor
    · simp [merge_pdf_pages, hs, ht, hlen, List.drop_eq_nil_of_le hle]
    · simp [merge_pdf_pages, hs, ht, hlen]

/-- Witness for C2: merging [1, 2, 3] from start index 5 into [10, 11]
leaves [10, 11] and logs the cannot-start message. -/
theorem merge_pdf_pages_pages_witness :
    (merge_pdf_pages true none
      (fun p => if p = "src.pdf" then some [1, 2, 3]
        else if p = "results/output.pdf" then some ([10, 11] : List ℕ) else none)
      "src.pdf" "results/output.pdf" 5).fs "results/output.pdf" = some [10, 11] ∧
    (merge_pdf_pages true none
      (fun p => if p = "src.pdf" then some [1, 2, 3]
        else if p = "results/output.pdf" then some ([10, 11] : List ℕ) else none)
      "src.pdf" "results/output.pdf" 5).log =
      ["Format PDF has only " ++ toString ([1, 2, 3] : List ℕ).length ++
        " pages, cannot start from page " ++ toString (5 + 1) ++ "."] :=
  (merge_pdf_pages_pages
    (fun p => if p = "src.pdf" then some [1, 2, 3]
      else if p = "results/output.pdf" then some ([10, 11] : List ℕ) else none)
    "src.pdf" "results/output.pdf" 5 [1, 2, 3] [10, 11]
    (by decide) (by decide)).2.2 (by decide)

/-- C5 counterexample: with a target path not containing ".pdf" the
intermediate path equals the target path, so a successful intermediate write
followed by an exception at the final os.replace leaves the merged content
at the target: the function returns targetPath but the content at targetPath
is NOT unchanged, refuting the claim as stated. -/
theorem merge_pdf_pages_failure_counterexample :
    (merge_pdf_pages true (some MergeFail.replaceStep)
      (fun p => if p = "src.pdf" then some [1, 2, 3]
        else if p = "out" then some ([7] : List ℕ) else none)
      "src.pdf" "out" 2).ret = "out" ∧
    (merge_pdf_pages true (some MergeFail.replaceStep)
      (fun p => if p = "src.pdf" then some [1, 2, 3]
        else if p = "out" then some ([7] : List ℕ) else none)
      "src.pdf" "out" 2).fs "out" = some [7, 3] ∧
    (merge_pdf_pages true (some MergeFail.replaceStep)
      (fun p => if p = "src.pdf" then some [1, 2, 3]
        else if p = "out" then some ([7] : List ℕ) else none)
      "src.pdf" "out" 2).fs "out" ≠
      (fun p => if p = "src.pdf" then some [1, 2, 3]
        else if p = "out" then some ([7] : List ℕ) else none) "out" := by
  refine ⟨rfl, by decide, by decide⟩

/-- C5 (amended): whenever the merge library is unavailable, or sourcePath
does not exist, or an exception is raised at any step of the merge,
merge_pdf_pages returns targetPath; and the content at targetPath is
unchanged provided the intermediate path targetPath.replace(".pdf",
"_merged.pdf") differs from targetPath, which holds for every path
containing ".pdf" (the counterexample shows the claim fails without this
proviso, for a target path with no ".pdf" and a failing final replace). -/
theorem merge_pdf_pages_preserves_target {α : Type} (hasPypdf : Bool)
    (failAt : Option MergeFail) (fs : String → Option (List α))
    (sourcePdfPath targetPdfPath : String) (startPage : Nat)
    (hfail : hasPypdf = false ∨ fs sourcePdfPath = none ∨ failAt ≠ none)
    (hpath : pyReplace targetPdfPath ".pdf" "_merged.pdf" ≠ targetPdfPath) :
    (merge_pdf_pages hasPypdf failAt fs sourcePdfPath targetPdfPath startPage).ret =
      targetPdfPath ∧
    (merge_pdf_pages hasPypdf failAt fs sourcePdfPath targetPdfPath startPage).fs
      targetPdfPath = fs targetPdfPath := by
  cases hasPypdf with
  | false => exact ⟨by simp [merge_pdf_pages], by simp [merge_pdf_pages]⟩
  | true =>
    rcases hfail with h | h | h
    · simp at h
    · exact ⟨by simp [merge_pdf_pages, h], by simp [merge_pdf_pages, h]⟩
    · cases hsrc : fs sourcePdfPath with
      | none => exact ⟨by simp [merge_pdf_pages, hsrc], by simp [merge_pdf_pages, hsrc]⟩
      | some P =>
        cases failAt with
        | none => exact absurd rfl h
        | some f =>
          cases htgt : fs targetPdfPath with
          | none =>
            cases f <;>
              exact ⟨by simp [merge_pdf_pages, hsrc, htgt], by simp [merge_pdf_pages, hsrc, htgt]⟩
          | some Q =>
            cases f with
            | readSource =>
              exact ⟨by simp [merge_pdf_pages, hsrc, htgt],
                by simp [merge_pdf_pages, hsrc, htgt]⟩
            | readTarget =>
              exact ⟨by simp [merge_pdf_pages, hsrc, htgt],
                by simp [merge_pdf_pages, hsrc, htgt]⟩
            | writeMerged =>
              exact ⟨by simp [merge_pdf_pages, hsrc, htgt],
                by simp [merge_pdf_pages, hsrc, htgt]⟩
            | replaceStep =>
              exact ⟨by simp [merge_pdf_pages, hsrc, htgt],
                by simp [merge_pdf_pages, hsrc, htgt, Ne.symm hpath]⟩

/-- Witness for C5: with the library flag off, a merge into
results/output.pdf returns the path with the file content untouched. -/
theorem merge_pdf_pages_preserves_target_witness :
    (merge_pdf_pages false none
      (fun p => if p = "results/output.pdf" then some ([10] : List ℕ) else none)
      "src.pdf" "results/output.pdf" 2).ret = "results/output.pdf" ∧
    (merge_pdf_pages false none
      (fun p => if p = "results/output.pdf" then some ([10] : List ℕ) else none)
      "src.pdf" "results/output.pdf" 2).fs "results/output.pdf" =
      (fun p => if p = "results/output.pdf" then some ([10] : List ℕ) else none)
        "results/output.pdf" :=
  merge_pdf_pages_preserves_target false none
    (fun p => if p = "results/output.pdf" then some ([10] : List ℕ) else none)
    "src.pdf" "results/output.pdf" 2 (Or.inl rfl) (by decide)

/-! ## The footer guard of the page compositor -/

theorem draw_text_with_urls_ops_y (m : FontMetric) (c : Canvas) (text : String)
    (x y : ℚ) (fontName : String) (fontSize : ℚ) (url : String) (maxWidth : ℚ) :
    ∃ δ : List Op,
      (draw_text_with_urls m c text x y fontName fontSize url maxWidth).1.ops =
        c.ops ++ δ ∧
      ∀ op ∈ δ, op.textY = none ∨ op.textY = some y := by
  unfold draw_text_with_urls
  dsimp only
  by_cases hocc : strContains text url
  · rw [if_pos hocc]
    obtain ⟨δ, h1, h2, h3⟩ := drawUrlParts_ops_advance m fontName fontSize url y
      (pySplitSep text url) (c.setFont fontName fontSize) x
    exact ⟨δ, by rw [h1]; simp [Canvas.setFont], h3⟩
  · rw [if_neg hocc]
    refine ⟨[Op.text x y text fontName fontSize ⟨0, 0, 0⟩], ?_, ?_⟩
    · simp [Canvas.drawString, Canvas.setFillColorRGB, Canvas.setFont]
    · intro op hop
      rw [List.mem_singleton] at hop
      subst hop
      right
      rfl

theorem drawWrappedUrlGuarded_nil_eq (m : FontMetric) (website : String)
    (margin maxWidth : ℚ) (fontName : String) (fontSize minY lineSpacing : ℚ)
    (c : Canvas) (yPos : ℚ) :
    drawWrappedUrlGuarded m website margin maxWidth fontName fontSize minY lineSpacing
      [] c yPos = (c, yPos) := rfl

theorem drawWrappedUrlGuarded_cons_eq (m : FontMetric) (website : String)
    (margin maxWidth : ℚ) (fontName : String) (fontSize minY lineSpacing : ℚ)
    (line : String) (rest : List String) (c : Canvas) (yPos : ℚ) :
    drawWrappedUrlGuarded m website margin maxWidth fontName fontSize minY lineSpacing
      (line :: rest) c yPos =
      if yPos ≥ minY then
        drawWrappedUrlGuarded m website margin maxWidth fontName fontSize minY lineSpacing
          rest (draw_text_with_urls m c line margin yPos fontName fontSize website
            maxWidth).1 (yPos - lineSpacing)
      else (c, yPos) := rfl

theorem drawWrappedGuarded_nil_eq (x minY lineSpacing : ℚ) (c : Canvas) (yPos : ℚ) :
    drawWrappedGuarded x minY lineSpacing [] c yPos = (c, yPos) := rfl

theorem drawWrappedGuarded_cons_eq (x minY lineSpacing : ℚ) (line : String)
    (rest : List String) (c : Canvas) (yPos : ℚ) :
    drawWrappedGuarded x minY lineSpacing (line :: rest) c yPos =
      if yPos ≥ minY then
        drawWrappedGuarded x minY lineSpacing rest (c.drawString x yPos line)
          (yPos - lineSpacing)
      else (c, yPos) := rfl

theorem drawWrappedUrlGuarded_ops (m : FontMetric) (website : String)
    (margin maxWidth : ℚ) (fontName : String) (fontSize minY lineSpacing : ℚ) :
    ∀ (lines : List String) (c : Canvas) (yPos : ℚ),
      ∃ δ : List Op,
        (drawWrappedUrlGuarded m website margin maxWidth fontName fontSize minY
          lineSpacing lines c yPos).1.ops = c.ops ++ δ ∧
        ∀ op ∈ δ, op.textY = none ∨ ∃ yv, op.textY = some yv ∧ minY ≤ yv := by
  intro lines
  induction lines with
  | nil => intro c yPos; exact ⟨[], by rw [drawWrappedUrlGuarded_nil_eq]; simp, by simp⟩
  | cons line rest ih =>
    intro c yPos
    rw [drawWrappedUrlGuarded_cons_eq]
    by_cases hy : yPos ≥ minY
    · rw [if_pos hy]
      obtain ⟨δ1, h1, h2⟩ := draw_text_with_urls_ops_y m c line margin yPos fontName
        fontSize website maxWidth
      obtain ⟨δ2, h3, h4⟩ := ih
        (draw_text_with_urls m c line margin yPos fontName fontSize website maxWidth).1
        (yPos - lineSpacing)
      refine ⟨δ1 ++ δ2, ?_, ?_⟩
      · rw [h3, h1, List.append_assoc]
      · intro op hop
        rcases List.mem_append.1 hop with h | h
        · rcases h2 op h with h | h
          · exact Or.inl h
          · exact Or.inr ⟨yPos, h, hy⟩
        · exact h4 op h
    · rw [if_neg hy]
      exact ⟨[], by simp, by simp⟩

theorem drawWrappedGuarded_ops (x minY lineSpacing : ℚ) :
    ∀ (lines : List String) (c : Canvas) (yPos : ℚ),
      ∃ δ : List Op,
        (drawWrappedGuarded x minY lineSpacing lines c yPos).1.ops = c.ops ++ δ ∧
        ∀ op ∈ δ, op.textY = none ∨ ∃ yv, op.textY = some yv ∧ minY ≤ yv := by
  intro lines
  induction lines with
  | nil => intro c yPos; exact ⟨[], by rw [drawWrappedGuarded_nil_eq]; simp, by simp⟩
  | cons line rest ih =>
    intro c yPos
    rw [drawWrappedGuarded_cons_eq]
    by_cases hy : yPos ≥ minY
    · rw [if_pos hy]
      obtain ⟨δ2, h3, h4⟩ := ih (c.drawString x yPos line) (yPos - lineSpacing)
      refine ⟨Op.text x yPos line c.fontName c.fontSize c.fill :: δ2, ?_, ?_⟩
      · rw [h3]
        simp [Canvas.drawString]
      · intro op hop
        rcases List.mem_cons.1 hop with h | h
        · subst h
          exact Or.inr ⟨yPos, rfl, hy⟩
        · exact h4 op h
    · rw [if_neg hy]
      exact ⟨[], by simp, by simp⟩

/-- C3 (amended): the two guarded paragraph loops of the welcome letter (the
page-1 contact paragraph loop, which draws through draw_text_with_urls, and
the page-2 price-change loop, which draws through drawString) never draw a
wrapped line once the cursor is below their min_y: every text operation they
append lies at y ≥ min_y, and the remaining lines are dropped. The other
wrapped paragraphs of the generator are drawn without any guard (see the
counterexample). -/
theorem welcome_letter_footer_guard :
    (∀ (m : FontMetric) (website : String) (margin maxWidth : ℚ) (fontName : String)
      (fontSize minY lineSpacing : ℚ) (lines : List String) (c : Canvas) (yPos : ℚ),
      ∃ δ : List Op,
        (drawWrappedUrlGuarded m website margin maxWidth fontName fontSize minY
          lineSpacing lines c yPos).1.ops = c.ops ++ δ ∧
        ∀ op ∈ δ, op.textY = none ∨ ∃ yv, op.textY = some yv ∧ minY ≤ yv) ∧
    (∀ (x minY lineSpacing : ℚ) (lines : List String) (c : Canvas) (yPos : ℚ),
      ∃ δ : List Op,
        (drawWrappedGuarded x minY lineSpacing lines c yPos).1.ops = c.ops ++ δ ∧
        ∀ op ∈ δ, op.textY = none ∨ ∃ yv, op.textY = some yv ∧ minY ≤ yv) :=
  ⟨fun m website margin maxWidth fontName fontSize minY lineSpacing lines c yPos =>
      drawWrappedUrlGuarded_ops m website margin maxWidth fontName fontSize minY
        lineSpacing lines c yPos,
    fun x minY lineSpacing lines c yPos =>
      drawWrappedGuarded_ops x minY lineSpacing lines c yPos⟩

/-- Witness for C3: the guarded plain loop at min_y 50 starting at y 60
draws the first line at y 60 and drops the second (its ops stay above 50). -/
theorem welcome_letter_footer_guard_witness :
    ∃ δ : List Op,
      (drawWrappedGuarded 72 50 14 ["one", "two"] {} 60).1.ops = ({} : Canvas).ops ++ δ ∧
      ∀ op ∈ δ, op.textY = none ∨ ∃ yv, op.textY = some yv ∧ (50:ℚ) ≤ yv :=
  welcome_letter_footer_guard.2 72 50 14 ["one", "two"] {} 60

/-- C3 counterexample: the page-1 welcome paragraph loop has NO footer
guard. With a document request whose website value is 100 short words, its
wrapped line "listed above." is drawn at the left margin at
y = 5284/127 ≈ 41.6, inside the reserved bottom 5% footer band of the page
(top of band 5346/127 ≈ 42.1), far below the page-1 guard threshold
min_y = 0.05 * height + 100; the remaining lines are drawn as well rather
than dropped, refuting the claim for the welcome paragraph. -/
theorem welcome_letter_footer_overflow :
    ((generate_welcome_letter flatMetric (fun _ => false) {} overflowData).ops[38]? =
      some (Op.text 72 (5284 / 127) "listed above." "Helvetica" 10 ⟨0, 0, 0⟩)) ∧
    "listed above." ∈ wrap_text flatMetric
      (welcomeParagraphText ((overflowData.website).getD "www.aramcoenergy.co.uk"))
      (pageWidthA4 - 72 - 72) "Helvetica" 10 ∧
    (5284 / 127 : ℚ) < pageHeightA4 * 0.05 := by
  refine ⟨?_, ?_, ?_⟩
  · decide
  · decide
  · decide

/-! ## The derived output name (document assembler, modelled from the spec) -/

theorem digitChar_lt_iff : ∀ a, a < 10 → ∀ b, b < 10 →
    (digitChar a < digitChar b ↔ a < b) := by decide

theorem digitChar_inj : ∀ a, a < 10 → ∀ b, b < 10 →
    digitChar a = digitChar b → a = b := by decide

theorem digitChar_isDigit (n : ℕ) : (digitChar n).isDigit = true := by
  unfold digitChar
  split <;> decide

theorem pad2_isDigit (n : ℕ) : ∀ ch ∈ pad2 n, ch.isDigit = true := by
  intro ch h
  unfold pad2 at h
  rcases List.mem_cons.1 h with rfl | h
  · exact digitChar_isDigit _
  rcases List.mem_cons.1 h with rfl | h
  · exact digitChar_isDigit _
  · simp at h

theorem pad4_isDigit (n : ℕ) : ∀ ch ∈ pad4 n, ch.isDigit = true := by
  intro ch h
  unfold pad4 at h
  rcases List.mem_cons.1 h with rfl | h
  · exact digitChar_isDigit _
  rcases List.mem_cons.1 h with rfl | h
  · exact digitChar_isDigit _
  rcases List.mem_cons.1 h with rfl | h
  · exact digitChar_isDigit _
  rcases List.mem_cons.1 h with rfl | h
  · exact digitChar_isDigit _
  · simp at h

theorem lex_cons_iff (x y : Char) (xs ys : List Char) :
    List.Lex (· < ·) (x :: xs) (y :: ys) ↔ x < y ∨ (x = y ∧ List.Lex (· < ·) xs ys) := by
  constructor
  · intro h
    cases h with
    | cons h => exact Or.inr ⟨rfl, h⟩
    | rel h => exact Or.inl h
  · intro h
    rcases h with h | ⟨rfl, h⟩
    · exact List.Lex.rel h
    · exact List.Lex.cons h

theorem pad2_lex_iff (a b : ℕ) (ha : a ≤ 99) (hb : b ≤ 99) (s t : List Char) :
    List.Lex (· < ·) (pad2 a ++ s) (pad2 b ++ t) ↔
      a < b ∨ (a = b ∧ List.Lex (· < ·) s t) := by
  show List.Lex _ (digitChar (a / 10) :: digitChar (a % 10) :: s)
    (digitChar (b / 10) :: digitChar (b % 10) :: t) ↔ _
  rw [lex_cons_iff, lex_cons_iff]
  rw [digitChar_lt_iff _ (by omega) _ (by omega)]
  rw [digitChar_lt_iff _ (by omega) _ (by omega)]
  constructor
  · intro h
    rcases h with h | ⟨he, h2⟩
    · left; omega
    · have h10 : a / 10 = b / 10 := digitChar_inj _ (by omega) _ (by omega) he
      rcases h2 with h | ⟨he2, h3⟩
      · left; omega
      · have h1 : a % 10 = b % 10 := digitChar_inj _ (by omega) _ (by omega) he2
        exact Or.inr ⟨by omega, h3⟩
  · intro h
    rcases h with h | ⟨rfl, h⟩
    · rcases Nat.lt_or_ge (a / 10) (b / 10) with h2 | h2
      · exact Or.inl h2
      · have h3 : a / 10 = b / 10 := by omega
        exact Or.inr ⟨by rw [h3], Or.inl (by omega)⟩
    · exact Or.inr ⟨rfl, Or.inr ⟨rfl, h⟩⟩

theorem pad2_inj (a b : ℕ) (ha : a ≤ 99) (hb : b ≤ 99) (h : pad2 a = pad2 b) : a = b := by
  unfold pad2 at h
  simp only [List.cons.injEq, and_true] at h
  have h1 := digitChar_inj _ (by omega) _ (by omega) h.1
  have h2 := digitChar_inj _ (by omega) _ (by omega) h.2
  omega

theorem pad4_eq (n : ℕ) : pad4 n = pad2 (n / 100) ++ pad2 (n % 100) := by
  unfold pad4 pad2
  have h1 : n / 1000 = n / 100 / 10 := by omega
  have h2 : n / 100 % 10 = n / 100 % 10 := rfl
  have h3 : n / 10 % 10 = n % 100 / 10 := by omega
  have h4 : n % 10 = n % 100 % 10 := by omega
  rw [h1, h3, h4]
  rfl

theorem pad4_lex_iff (a b : ℕ) (ha : a ≤ 9999) (hb : b ≤ 9999) (s t : List Char) :
    List.Lex (· < ·) (pad4 a ++ s) (pad4 b ++ t) ↔
      a < b ∨ (a = b ∧ List.Lex (· < ·) s t) := by
  rw [pad4_eq, pad4_eq, List.append_assoc, List.append_assoc]
  rw [pad2_lex_iff _ _ (by omega) (by omega)]
  rw [pad2_lex_iff _ _ (by omega) (by omega)]
  constructor
  · intro h
    rcases h with h | ⟨he, h2⟩
    · left; omega
    · rcases h2 with h | ⟨he2, h3⟩
      · left; omega
      · exact Or.inr ⟨by omega, h3⟩
  · intro h
    rcases h with h | ⟨rfl, h⟩
    · rcases Nat.lt_or_ge (a / 100) (b / 100) with h2 | h2
      · exact Or.inl h2
      · have h3 : a / 100 = b / 100 := by omega
        exact Or.inr ⟨by rw [h3], Or.inl (by omega)⟩
    · exact Or.inr ⟨rfl, Or.inr ⟨rfl, h⟩⟩

theorem pad4_inj (a b : ℕ) (ha : a ≤ 9999) (hb : b ≤ 9999) (h : pad4 a = pad4 b) :
    a = b := by
  rw [pad4_eq, pad4_eq] at h
  obtain ⟨h1, h2⟩ := List.append_inj h rfl
  have h3 := pad2_inj _ _ (by omega) (by omega) h1
  have h4 := pad2_inj _ _ (by omega) (by omega) h2
  omega

/-- C8 (spec-modelled): with no explicit output path, the document assembler
derives <templateName>_<timestamp>.pdf under the fixed results directory;
for the welcome template the name is welcome_letter_<14-digit-timestamp>.pdf,
and the YYYYMMDDHHMMSS timestamp is collision-resistant (equal strings force
equal wall-clock seconds) and sortable (lexicographic order of the strings
is chronological order) at second granularity. -/
theorem derived_output_name_welcome (t tt : Timestamp) (ht : t.valid) (htt : tt.valid) :
    derivedOutputPath "welcome" t = some ("results/welcome_letter_" ++ t.str ++ ".pdf") ∧
    t.str.length = 14 ∧
    (∀ ch ∈ t.str.data, ch.isDigit = true) ∧
    (t.str = tt.str ↔ t = tt) ∧
    (t.str < tt.str ↔ t.key < tt.key) := by
  obtain ⟨hy1, hy2, hmo1, hmo2, hd1, hd2, hh, hmi, hs⟩ := ht
  obtain ⟨gy1, gy2, gmo1, gmo2, gd1, gd2, gh, gmi, gs⟩ := htt
  refine ⟨rfl, ?_, ?_, ?_, ?_⟩
  · show (pad4 t.year ++ pad2 t.month ++ pad2 t.day ++ pad2 t.hour ++ pad2 t.minute ++
      pad2 t.second).length = 14
    simp [pad4, pad2]
  · intro ch hch
    have hch2 : ch ∈ pad4 t.year ++ pad2 t.month ++ pad2 t.day ++ pad2 t.hour ++
        pad2 t.minute ++ pad2 t.second := hch
    simp only [List.mem_append] at hch2
    rcases hch2 with ((((h | h) | h) | h) | h) | h
    · exact pad4_isDigit _ ch h
    · exact pad2_isDigit _ ch h
    · exact pad2_isDigit _ ch h
    · exact pad2_isDigit _ ch h
    · exact pad2_isDigit _ ch h
    · exact pad2_isDigit _ ch h
  · constructor
    · intro h
      have hd : pad4 t.year ++ pad2 t.month ++ pad2 t.day ++ pad2 t.hour ++
          pad2 t.minute ++ pad2 t.second =
          pad4 tt.year ++ pad2 tt.month ++ pad2 tt.day ++ pad2 tt.hour ++
          pad2 tt.minute ++ pad2 tt.second := congrArg String.data h
      simp only [List.append_assoc] at hd
      obtain ⟨e1, hd⟩ := List.append_inj hd (by simp [pad4])
      obtain ⟨e2, hd⟩ := List.append_inj hd (by simp [pad2])
      obtain ⟨e3, hd⟩ := List.append_inj hd (by simp [pad2])
      obtain ⟨e4, hd⟩ := List.append_inj hd (by simp [pad2])
      obtain ⟨e5, e6⟩ := List.append_inj hd (by simp [pad2])
      have f1 := pad4_inj _ _ (by omega) (by omega) e1
      have f2 := pad2_inj _ _ (by omega) (by omega) e2
      have f3 := pad2_inj _ _ (by omega) (by omega) e3
      have f4 := pad2_inj _ _ (by omega) (by omega) e4
      have f5 := pad2_inj _ _ (by omega) (by omega) e5
      have f6 := pad2_inj _ _ (by omega) (by omega) e6
      cases t
      cases tt
      simp only [Timestamp.mk.injEq]
      exact ⟨f1, f2, f3, f4, f5, f6⟩
    · intro h
      rw [h]
  · rw [String.lt_iff_toList_lt]
    have hiff : t.str.toList < tt.str.toList ↔ List.Lex (· < ·)
        (pad4 t.year ++ pad2 t.month ++ pad2 t.day ++ pad2 t.hour ++
          pad2 t.minute ++ pad2 t.second)
        (pad4 tt.year ++ pad2 tt.month ++ pad2 tt.day ++ pad2 tt.hour ++
          pad2 tt.minute ++ pad2 tt.second) := Iff.rfl
    rw [hiff]
    simp only [List.append_assoc]
    rw [pad4_lex_iff _ _ (by omega) (by omega)]
    rw [pad2_lex_iff _ _ (by omega) (by omega)]
    rw [pad2_lex_iff _ _ (by omega) (by omega)]
    rw [pad2_lex_iff _ _ (by omega) (by omega)]
    rw [pad2_lex_iff _ _ (by omega) (by omega)]
    rw [← List.append_nil (pad2 t.second), ← List.append_nil (pad2 tt.second)]
    rw [pad2_lex_iff _ _ (by omega) (by omega)]
    simp only [List.Lex.not_nil_right]
    unfold Timestamp.key
    constructor
    · intro h
      rcases h with h | ⟨e1, h⟩
      · omega
      rcases h with h | ⟨e2, h⟩
      · omega
      rcases h with h | ⟨e3, h⟩
      · omega
      rcases h with h | ⟨e4, h⟩
      · omega
      rcases h with h | ⟨e5, h⟩
      · omega
      rcases h with h | ⟨e6, h⟩
      · omega
      · exact absurd h id
    · intro h
      rcases Nat.lt_trichotomy t.year tt.year with h1 | h1 | h1
      · exact Or.inl h1
      · refine Or.inr ⟨h1, ?_⟩
        rcases Nat.lt_trichotomy t.month tt.month with h2 | h2 | h2
        · exact Or.inl h2
        · refine Or.inr ⟨h2, ?_⟩
          rcases Nat.lt_trichotomy t.day tt.day with h3 | h3 | h3
          · exact Or.inl h3
          · refine Or.inr ⟨h3, ?_⟩
            rcases Nat.lt_trichotomy t.hour tt.hour with h4 | h4 | h4
            · exact Or.inl h4
            · refine Or.inr ⟨h4, ?_⟩
              rcases Nat.lt_trichotomy t.minute tt.minute with h5 | h5 | h5
              · exact Or.inl h5
              · refine Or.inr ⟨h5, ?_⟩
                exact Or.inl (by omega)
              · exact absurd h (by omega)
            · exact absurd h (by omega)
          · exact absurd h (by omega)
        · exact absurd h (by omega)
      · exact absurd h (by omega)

/-- Witness for C8: the derived welcome name at the concrete time
2024-01-15 09:30:05. -/
theorem derived_output_name_welcome_witness :
    derivedOutputPath "welcome" ⟨2024, 1, 15, 9, 30, 5⟩ =
      some ("results/welcome_letter_" ++ (⟨2024, 1, 15, 9, 30, 5⟩ : Timestamp).str ++
        ".pdf") :=
  (derived_output_name_welcome ⟨2024, 1, 15, 9, 30, 5⟩ ⟨2024, 1, 15, 9, 30, 6⟩
    (by decide) (by decide)).1
